import Mathlib

/-!
Verification development for the smart highlight-detection core of the
clip repository.  The Python sources `highlight_detector.py`,
`hud_detector.py` and `simple_audio_analyzer.py` are shallowly embedded:
timestamps and scores become exact rationals, Python dicts become
structures, Python lists become `List`, and every external call
(ffprobe duration probing, frame decoding, the OCR / audio / HUD
sub-detectors) becomes an explicit input of the embedded function.
A failed ffprobe call is modelled as `none`; an unexpected exception in
the main detection path is modelled as the `Except.error` case of the
top-level input.
-/

/-- A gameplay period dict produced by `LoLHUDDetector`
(`hud_detector.py`).  The optional `method` key is present only on
fallback periods. -/
structure GameplayPeriod where
  start_time : ℚ
  end_time : ℚ
  confidence : ℚ
  method : Option String := none
deriving DecidableEq

/-- A kill-feed event dict as consumed by
`SmartLoLHighlightDetector._correlate_events`; the defaults mirror the
`.get` defaults used by the Python code. -/
structure KillEvent where
  timestamp : ℚ
  event_type : String := "kill"
  confidence : ℚ := 0.7
deriving DecidableEq

/-- An audio moment dict as produced by `SimpleLoLAnalyzer`
(`simple_audio_analyzer.py`). -/
structure AudioMoment where
  start_time : ℚ
  end_time : ℚ
  type : String
  excitement_score : ℚ
  detection_reason : String
  duration : ℚ
deriving DecidableEq

/-- A correlated highlight dict built by
`SmartLoLHighlightDetector._correlate_events`.  `audio_boost` is
`none` when the key is absent (the scorer reads it with default 0);
`score` is written by `_score_and_rank` and is 0 until then. -/
structure Highlight where
  timestamp : ℚ
  supporting_audio : List AudioMoment
  event_type : String
  confidence : ℚ
  detection_methods : List String
  in_game : Bool
  audio_boost : Option ℚ := none
  score : ℚ := 0
deriving DecidableEq

/-- A final clip dict as produced by `_generate_clips` or
`_pattern_based_fallback` in `highlight_detector.py`. -/
structure Clip where
  start_time : ℚ
  end_time : ℚ
  duration : ℚ
  excitement_score : ℚ
  detection_reason : String
  type : String
  event_type : String
  confidence : ℚ
  methods_used : List String
  in_game_verified : Bool
deriving DecidableEq

/-- `self.correlation_window` of `SmartLoLHighlightDetector`. -/
def correlation_window : ℚ := 8

/-- `self.min_highlight_gap` of `SmartLoLHighlightDetector`. -/
def min_highlight_gap : ℚ := 30

/-- `self.event_scores` of `SmartLoLHighlightDetector`. -/
def event_scores : List (String × ℚ) :=
  [("penta_kill", 10), ("quadra_kill", 8), ("triple_kill", 6), ("double_kill", 4),
   ("first_blood", 5), ("shutdown", 4), ("baron", 6), ("dragon", 5),
   ("turret", 3), ("teamfight", 7), ("single_kill", 2), ("audio_spike", 1)]

/-- Does the character list start with the pattern?  Helper for the
embedding of Python's substring test `pat in s`. -/
def charsStartWith : List Char → List Char → Bool
  | [], _ => true
  | _ :: _, [] => false
  | p :: ps, c :: cs => p == c && charsStartWith ps cs

/-- Does the character list contain the pattern as a contiguous run? -/
def charsContain (pat : List Char) : List Char → Bool
  | [] => charsStartWith pat []
  | c :: cs => charsStartWith pat (c :: cs) || charsContain pat cs

/-- Python's substring containment test `pat in s`. -/
def strContains (s pat : String) : Bool :=
  charsContain pat.data s.data

/-- `LoLHUDDetector.is_timestamp_in_game` (`hud_detector.py`). -/
def is_timestamp_in_game (timestamp : ℚ) (gameplay_periods : List GameplayPeriod) : Bool :=
  gameplay_periods.any fun period =>
    decide (period.start_time ≤ timestamp) && decide (timestamp ≤ period.end_time)

/-- `LoLHUDDetector.get_gameplay_periods_fallback`.  The ffprobe call is
modelled by the `probe` argument; the surrounding `except` clause
returns the empty list when probing fails. -/
def get_gameplay_periods_fallback (probe : Option ℚ) : List GameplayPeriod :=
  match probe with
  | some duration =>
      let skip_duration := duration * 0.05
      [{ start_time := skip_duration, end_time := duration - skip_duration,
         confidence := 0.6, method := some "fallback" }]
  | none => []

/-- Python's `max(a.get('excitement_score', 0.3) for a in nearby_audio)`
(the default never fires in the embedding since the field is total). -/
def best_audio_score (nearby_audio : List AudioMoment) : ℚ :=
  ((nearby_audio.map AudioMoment.excitement_score).max?).getD 0

/-- The body of the first loop of
`SmartLoLHighlightDetector._correlate_events`: build the correlated
highlight for one kill event. -/
def correlate_kill (audio_moments : List AudioMoment) (kill_event : KillEvent) : Highlight :=
  let kill_time := kill_event.timestamp
  let nearby_audio := audio_moments.filter fun audio_event =>
    decide (|audio_event.start_time - kill_time| ≤ correlation_window)
  let highlight : Highlight :=
    { timestamp := kill_time, supporting_audio := nearby_audio,
      event_type := kill_event.event_type, confidence := kill_event.confidence,
      detection_methods := ["ocr", "hud"], in_game := true }
  if nearby_audio = [] then highlight
  else
    { highlight with
      detection_methods := highlight.detection_methods ++ ["audio"],
      confidence := min 1 (highlight.confidence + 0.2),
      audio_boost := some (best_audio_score nearby_audio) }

/-- The highlight dict appended for an uncorrelated high-excitement
audio event in `_correlate_events`. -/
def audio_only_highlight (audio_event : AudioMoment) : Highlight :=
  { timestamp := audio_event.start_time, supporting_audio := [],
    event_type := "audio_highlight", confidence := audio_event.excitement_score,
    detection_methods := ["audio", "hud"], in_game := true }

/-- The body of the second loop of `_correlate_events`: append an
uncorrelated audio event as its own highlight when its excitement
score is high enough and no existing highlight is within the
correlation window. -/
def correlate_audio_step (correlated : List Highlight) (audio_event : AudioMoment) :
    List Highlight :=
  let already_used := correlated.any fun h =>
    decide (|h.timestamp - audio_event.start_time| ≤ correlation_window)
  if !already_used && decide (0.7 < audio_event.excitement_score) then
    correlated ++ [audio_only_highlight audio_event]
  else correlated

/-- `SmartLoLHighlightDetector._correlate_events`. -/
def correlate_events (kill_events : List KillEvent) (audio_moments : List AudioMoment) :
    List Highlight :=
  audio_moments.foldl correlate_audio_step (kill_events.map (correlate_kill audio_moments))

/-- The score assigned to one highlight by
`SmartLoLHighlightDetector._score_and_rank`. -/
def score_of (highlight : Highlight) : ℚ :=
  let base_score := (event_scores.lookup highlight.event_type).getD 1
  let confidence_mult := highlight.confidence
  let method_bonus : ℚ :=
    if 2 < highlight.detection_methods.length then 1.4
    else if 1 < highlight.detection_methods.length then 1.2
    else 1
  let audio_bonus := 1 + (highlight.audio_boost.getD 0) * 0.3
  min (base_score * confidence_mult * method_bonus * audio_bonus) 10

/-- Stable insertion into a list sorted descending by `key`: the new
element goes after every element whose key is at least its own.  Used
to embed Python's stable `list.sort(key=..., reverse=True)`. -/
def insertDesc {α : Type} (key : α → ℚ) (x : α) : List α → List α
  | [] => [x]
  | y :: ys => if key x ≤ key y then y :: insertDesc key x ys else x :: y :: ys

/-- Stable descending sort by `key`, embedding Python's
`list.sort(key=..., reverse=True)`. -/
def sortDesc {α : Type} (key : α → ℚ) (l : List α) : List α :=
  l.foldl (fun acc x => insertDesc key x acc) []

/-- `SmartLoLHighlightDetector._score_and_rank`. -/
def score_and_rank (highlights : List Highlight) : List Highlight :=
  sortDesc Highlight.score (highlights.map fun h => { h with score := score_of h })

/-- The duration / pre-buffer table of
`SmartLoLHighlightDetector._generate_clips` (Python substring tests on
the event type). -/
def clip_params (event_type : String) : ℚ × ℚ :=
  if strContains event_type "penta" || strContains event_type "quadra" then (60, 15)
  else if strContains event_type "teamfight" || strContains event_type "baron" then (45, 10)
  else if strContains event_type "triple" || strContains event_type "double" then (40, 8)
  else (35, 6)

/-- The clip dict built for one accepted highlight in
`_generate_clips`. -/
def make_clip (highlight : Highlight) : Clip :=
  let p := clip_params highlight.event_type
  let duration := p.1
  let pre_buffer := p.2
  let start_time := max 0 (highlight.timestamp - pre_buffer)
  let end_time := start_time + duration
  { start_time := start_time, end_time := end_time, duration := duration,
    excitement_score := highlight.score,
    detection_reason := "Smart: " ++ highlight.event_type ++ " (" ++
      String.intercalate ", " highlight.detection_methods ++ ")",
    type := "smart_highlight", event_type := highlight.event_type,
    confidence := highlight.confidence, methods_used := highlight.detection_methods,
    in_game_verified := true }

/-- The loop of `SmartLoLHighlightDetector._generate_clips`:
`clips` is the accumulator, `last_clip_time` the anchor time of the
most recently accepted clip (initially -999). -/
def generate_clips_aux (max_clips : ℕ) : List Highlight → List Clip → ℚ → List Clip
  | [], clips, _ => clips
  | highlight :: rest, clips, last_clip_time =>
    if highlight.timestamp - last_clip_time < min_highlight_gap then
      generate_clips_aux max_clips rest clips last_clip_time
    else
      let clips2 := clips ++ [make_clip highlight]
      if max_clips ≤ clips2.length then clips2
      else generate_clips_aux max_clips rest clips2 highlight.timestamp

/-- `SmartLoLHighlightDetector._generate_clips` (the loop ranges over
`highlights[:max_clips * 2]`). -/
def generate_clips (highlights : List Highlight) (max_clips : ℕ := 8) : List Clip :=
  generate_clips_aux max_clips (highlights.take (max_clips * 2)) [] (-999)

/-- The interval table of
`SmartLoLHighlightDetector._pattern_based_fallback`. -/
def fallback_intervals : List (ℚ × String × ℚ) :=
  [(300, "early_game", 0.6), (600, "first_objective", 0.7), (900, "mid_game", 0.8),
   (1200, "team_fights", 0.9), (1500, "late_game", 0.8)]

/-- The body of the interval loop of `_pattern_based_fallback`: the
clip appended for one interval entry, when its guard passes. -/
def fallback_clip_for (duration : ℚ) (start_offset : ℚ) (entry : ℚ × String × ℚ) :
    Option Clip :=
  if start_offset < entry.1 ∧ entry.1 + 45 < duration then
    some { start_time := entry.1 - 10, end_time := entry.1 + 35, duration := 45,
           excitement_score := entry.2.2,
           detection_reason := "Pattern: " ++ entry.2.1,
           type := "pattern_fallback", event_type := entry.2.1,
           confidence := 0.6, methods_used := ["pattern"],
           in_game_verified := false }
  else none

/-- `SmartLoLHighlightDetector._pattern_based_fallback`.  The ffprobe
call is modelled by `probe`; the Python `except` clause substitutes a
default duration of 3600 when probing fails. -/
def pattern_based_fallback (probe : Option ℚ) : List Clip :=
  let duration := probe.getD 3600
  let start_offset : ℚ := 120
  let clips := fallback_intervals.filterMap (fallback_clip_for duration start_offset)
  clips.take 5

/-- The external signals consumed by the main path of
`detect_smart_highlights`: the HUD analyzer's periods, the ffprobe
duration available to `get_gameplay_periods_fallback`, the kill feed
events and the audio moments. -/
structure MainSignals where
  gameplay_periods : List GameplayPeriod
  hud_fallback_probe : Option ℚ
  kill_events : List KillEvent
  audio_moments : List AudioMoment

/-- Steps 1-6 of `SmartLoLHighlightDetector.detect_smart_highlights`
(the body of the `try` block). -/
def detect_core (s : MainSignals) : List Clip :=
  let gameplay_periods :=
    if s.gameplay_periods = [] then get_gameplay_periods_fallback s.hud_fallback_probe
    else s.gameplay_periods
  let filtered_kills := s.kill_events.filter fun event =>
    is_timestamp_in_game event.timestamp gameplay_periods
  let filtered_audio := s.audio_moments.filter fun moment =>
    is_timestamp_in_game moment.start_time gameplay_periods
  let correlated_highlights := correlate_events filtered_kills filtered_audio
  let scored_highlights := score_and_rank correlated_highlights
  generate_clips scored_highlights

/-- `SmartLoLHighlightDetector.detect_smart_highlights`: the main path
either succeeds with its signals or raises (`Except.error`), in which
case the pattern-based fallback runs with its own ffprobe result. -/
def detect_smart_highlights (outcome : Except Unit MainSignals)
    (fallback_probe : Option ℚ) : List Clip :=
  match outcome with
  | .ok s => detect_core s
  | .error _ => pattern_based_fallback fallback_probe

/-- The body of the selection loop of
`SimpleLoLAnalyzer._merge_and_rank_simple`: the state is the pair
`(final_clips, used_times)`. -/
def merge_step (video_duration : ℚ) (st : List AudioMoment × List ℚ)
    (moment : AudioMoment) : List AudioMoment × List ℚ :=
  let final_clips := st.1
  let used_times := st.2
  let too_close := used_times.any fun used_time =>
    decide (|moment.start_time - used_time| < 20)
  if !too_close && decide (final_clips.length < 15) then
    let m1 := { moment with end_time := min moment.end_time video_duration }
    let m2 := { m1 with duration := m1.end_time - m1.start_time }
    if 2 ≤ m2.duration then (final_clips ++ [m2], used_times ++ [m2.start_time])
    else (final_clips, used_times)
  else (final_clips, used_times)

/-- `SimpleLoLAnalyzer._merge_and_rank_simple`
(`simple_audio_analyzer.py`). -/
def merge_and_rank_simple (all_moments : List AudioMoment) (video_duration : ℚ) :
    List AudioMoment :=
  if all_moments = [] then []
  else
    let sorted := sortDesc AudioMoment.excitement_score all_moments
    let result := sorted.foldl (merge_step video_duration) ([], [])
    result.1

/-- The invariant maintained by the selection loop of
`_merge_and_rank_simple`: at most 15 selected moments, `used_times`
mirrors the selected start times, selected start times are pairwise at
least 20 s apart, and every selected moment ends by the video end and
lasts at least 2 s. -/
def merge_inv (d : ℚ) (st : List AudioMoment × List ℚ) : Prop :=
  st.1.length ≤ 15 ∧ st.2 = st.1.map AudioMoment.start_time ∧
  (st.1.Pairwise fun a b => 20 ≤ |a.start_time - b.start_time|) ∧
  ∀ m ∈ st.1, m.end_time ≤ d ∧ 2 ≤ m.duration

/-! ### Concrete runs used as counterexamples and witnesses

`sigA` models a 400 s video: one gameplay period covering [0, 400] and
a single in-game kill at t = 395 s.  `sigB` models a long video with
two in-game kills at t = 100 s and t = 130 s.  The expected outputs
were traced by hand from `_generate_clips`. -/

def sigA : MainSignals :=
  { gameplay_periods := [{ start_time := 0, end_time := 400, confidence := 1 }],
    hud_fallback_probe := some 400,
    kill_events := [{ timestamp := 395, event_type := "single_kill", confidence := 0.7 }],
    audio_moments := [] }

def clipA : Clip :=
  { start_time := 389, end_time := 424, duration := 35, excitement_score := 1.68,
    detection_reason := "Smart: single_kill (ocr, hud)", type := "smart_highlight",
    event_type := "single_kill", confidence := 0.7, methods_used := ["ocr", "hud"],
    in_game_verified := true }

def sigB : MainSignals :=
  { gameplay_periods := [{ start_time := 0, end_time := 10000, confidence := 1 }],
    hud_fallback_probe := none,
    kill_events := [{ timestamp := 100, event_type := "single_kill", confidence := 0.7 },
                    { timestamp := 130, event_type := "single_kill", confidence := 0.7 }],
    audio_moments := [] }

def clipB1 : Clip :=
  { start_time := 94, end_time := 129, duration := 35, excitement_score := 1.68,
    detection_reason := "Smart: single_kill (ocr, hud)", type := "smart_highlight",
    event_type := "single_kill", confidence := 0.7, methods_used := ["ocr", "hud"],
    in_game_verified := true }

def clipB2 : Clip :=
  { start_time := 124, end_time := 159, duration := 35, excitement_score := 1.68,
    detection_reason := "Smart: single_kill (ocr, hud)", type := "smart_highlight",
    event_type := "single_kill", confidence := 0.7, methods_used := ["ocr", "hud"],
    in_game_verified := true }

/-- A ranked candidate at t = 1000 s, score 5 (highest). -/
def genA : Highlight :=
  { timestamp := 1000, supporting_audio := [], event_type := "kill",
    confidence := 0.7, detection_methods := ["ocr", "hud"], in_game := true, score := 5 }

/-- A ranked candidate at t = 100 s, score 4: 900 s away from `genA`. -/
def genB : Highlight :=
  { timestamp := 100, supporting_audio := [], event_type := "kill",
    confidence := 0.7, detection_methods := ["ocr", "hud"], in_game := true, score := 4 }

/-- An audio spike at t = 205 s, within 8 s of `killC`. -/
def audC : AudioMoment :=
  { start_time := 205, end_time := 210, type := "volume_spike",
    excitement_score := 0.8, detection_reason := "Volume spike detected", duration := 3 }

/-- A text-recognized kill anchor at t = 200 s. -/
def killC : KillEvent :=
  { timestamp := 200, event_type := "single_kill", confidence := 0.7 }

/-! ### Helper lemmas about the embedded operations -/

theorem mem_insertDesc {α : Type} (key : α → ℚ) (x y : α) (l : List α) :
    y ∈ insertDesc key x l ↔ y = x ∨ y ∈ l := by
  induction l with
  | nil => simp [insertDesc]
  | cons z zs ih =>
    simp only [insertDesc]
    split
    · simp only [List.mem_cons, ih]
      tauto
    · simp only [List.mem_cons]

theorem mem_sortDesc {α : Type} (key : α → ℚ) (y : α) (l : List α) :
    y ∈ sortDesc key l ↔ y ∈ l := by
  suffices h : ∀ acc, (y ∈ l.foldl (fun acc x => insertDesc key x acc) acc ↔
      y ∈ acc ∨ y ∈ l) by
    simpa [sortDesc] using h []
  induction l with
  | nil => intro acc; simp
  | cons z zs ih =>
    intro acc
    simp only [List.foldl_cons, ih, mem_insertDesc, List.mem_cons]
    tauto

theorem mem_score_and_rank (h : Highlight) (l : List Highlight) :
    h ∈ score_and_rank l ↔ ∃ h0 ∈ l, h = { h0 with score := score_of h0 } := by
  simp only [score_and_rank, mem_sortDesc, List.mem_map]
  constructor
  · rintro ⟨h0, hm, rfl⟩; exact ⟨h0, hm, rfl⟩
  · rintro ⟨h0, hm, rfl⟩; exact ⟨h0, hm, rfl⟩

theorem score_of_le_ten (h : Highlight) : score_of h ≤ 10 :=
  min_le_right _ _

theorem clip_params_facts (event_type : String) :
    0 < (clip_params event_type).1 ∧ 0 ≤ (clip_params event_type).2 ∧
    (clip_params event_type).2 ≤ 15 := by
  unfold clip_params
  split_ifs <;> norm_num

theorem make_clip_start_time (h : Highlight) :
    (make_clip h).start_time = max 0 (h.timestamp - (clip_params h.event_type).2) := rfl

theorem make_clip_end_time (h : Highlight) :
    (make_clip h).end_time = (make_clip h).start_time + (clip_params h.event_type).1 := rfl

theorem make_clip_duration (h : Highlight) :
    (make_clip h).duration = (clip_params h.event_type).1 := rfl

theorem make_clip_score (h : Highlight) :
    (make_clip h).excitement_score = h.score := rfl

theorem make_clip_wf (h : Highlight) :
    0 ≤ (make_clip h).start_time ∧ (make_clip h).start_time < (make_clip h).end_time ∧
    (make_clip h).duration = (make_clip h).end_time - (make_clip h).start_time := by
  obtain ⟨hd, -, -⟩ := clip_params_facts h.event_type
  refine ⟨le_max_left _ _, ?_, ?_⟩
  · rw [make_clip_end_time]
    linarith
  · rw [make_clip_duration, make_clip_end_time]
    ring

theorem make_clip_start_le (h : Highlight) (ht : 0 ≤ h.timestamp) :
    (make_clip h).start_time ≤ h.timestamp := by
  obtain ⟨-, hp0, -⟩ := clip_params_facts h.event_type
  rw [make_clip_start_time]
  exact max_le ht (by linarith)

theorem make_clip_start_ge (h : Highlight) :
    h.timestamp - 15 ≤ (make_clip h).start_time := by
  obtain ⟨-, -, hp15⟩ := clip_params_facts h.event_type
  rw [make_clip_start_time]
  exact le_trans (by linarith) (le_max_right _ _)

theorem mem_generate_clips_aux {m : ℕ} {hs : List Highlight} {acc : List Clip} {last : ℚ}
    {c : Clip} (hc : c ∈ generate_clips_aux m hs acc last) :
    c ∈ acc ∨ ∃ h ∈ hs, c = make_clip h := by
  induction hs generalizing acc last with
  | nil => exact Or.inl hc
  | cons h rest ih =>
    simp only [generate_clips_aux] at hc
    split_ifs at hc with hgap hstop
    · rcases ih hc with h1 | ⟨h2, hm, rfl⟩
      · exact Or.inl h1
      · exact Or.inr ⟨h2, List.mem_cons_of_mem _ hm, rfl⟩
    · rcases List.mem_append.mp hc with h1 | h1
      · exact Or.inl h1
      · exact Or.inr ⟨h, List.mem_cons_self _ _, (List.mem_singleton.mp h1)⟩
    · rcases ih hc with h1 | ⟨h2, hm, rfl⟩
      · rcases List.mem_append.mp h1 with h3 | h3
        · exact Or.inl h3
        · exact Or.inr ⟨h, List.mem_cons_self _ _, (List.mem_singleton.mp h3)⟩
      · exact Or.inr ⟨h2, List.mem_cons_of_mem _ hm, rfl⟩

theorem mem_generate_clips {hs : List Highlight} {m : ℕ} {c : Clip}
    (hc : c ∈ generate_clips hs m) : ∃ h ∈ hs, c = make_clip h := by
  rcases mem_generate_clips_aux hc with h1 | ⟨h2, hm, rfl⟩
  · cases h1
  · exact ⟨h2, List.mem_of_mem_take hm, rfl⟩

theorem fallback_clip_for_eq_some {d off : ℚ} {e : ℚ × String × ℚ} {c : Clip}
    (h : fallback_clip_for d off e = some c) :
    c.start_time = e.1 - 10 ∧ c.end_time = e.1 + 35 ∧ c.duration = 45 ∧
    c.excitement_score = e.2.2 ∧ c.type = "pattern_fallback" ∧
    c.methods_used = ["pattern"] ∧ c.in_game_verified = false ∧
    off < e.1 ∧ e.1 + 45 < d := by
  unfold fallback_clip_for at h
  split_ifs at h with hcond
  · injection h with h
    subst h
    exact ⟨rfl, rfl, rfl, rfl, rfl, rfl, rfl, hcond.1, hcond.2⟩

theorem mem_pattern_based_fallback {probe : Option ℚ} {c : Clip}
    (h : c ∈ pattern_based_fallback probe) :
    c.type = "pattern_fallback" ∧ c.methods_used = ["pattern"] ∧
    c.in_game_verified = false ∧ 0 ≤ c.start_time ∧ c.start_time < c.end_time ∧
    c.duration = c.end_time - c.start_time ∧ c.excitement_score ≤ 10 := by
  unfold pattern_based_fallback at h
  have h2 := List.mem_of_mem_take h
  rw [List.mem_filterMap] at h2
  obtain ⟨e, he, heq⟩ := h2
  obtain ⟨hs, hen, hdur, hsc, hty, hmeth, hver, hoff, -⟩ := fallback_clip_for_eq_some heq
  have he2 : e.2.2 ≤ 10 := by
    fin_cases he <;> norm_num
  refine ⟨hty, hmeth, hver, ?_, ?_, ?_, ?_⟩
  · rw [hs]; linarith
  · rw [hs, hen]; linarith
  · rw [hs, hen, hdur]; ring
  · rw [hsc]; exact he2

theorem correlate_kill_timestamp (audios : List AudioMoment) (k : KillEvent) :
    (correlate_kill audios k).timestamp = k.timestamp := by
  simp only [correlate_kill]
  split <;> rfl

theorem audio_only_highlight_timestamp (a : AudioMoment) :
    (audio_only_highlight a).timestamp = a.start_time := rfl

theorem correlate_audio_step_cases (init : List Highlight) (a : AudioMoment) :
    correlate_audio_step init a = init ∨
    correlate_audio_step init a = init ++ [audio_only_highlight a] := by
  simp only [correlate_audio_step]
  split
  · exact Or.inr rfl
  · exact Or.inl rfl

theorem foldl_correlate_audio_append (l : List AudioMoment) (init : List Highlight) :
    ∃ extra, l.foldl correlate_audio_step init = init ++ extra ∧
      ∀ h ∈ extra, ∃ a ∈ l, h = audio_only_highlight a := by
  induction l generalizing init with
  | nil => exact ⟨[], by simp, by simp⟩
  | cons a t ih =>
    rw [List.foldl_cons]
    rcases correlate_audio_step_cases init a with h1 | h1 <;> rw [h1]
    · obtain ⟨extra, heq, hmem⟩ := ih init
      refine ⟨extra, heq, ?_⟩
      intro h hm
      obtain ⟨a2, ha2, he2⟩ := hmem h hm
      exact ⟨a2, List.mem_cons_of_mem _ ha2, he2⟩
    · obtain ⟨extra, heq, hmem⟩ := ih (init ++ [audio_only_highlight a])
      rw [List.append_assoc] at heq
      refine ⟨audio_only_highlight a :: extra, heq, ?_⟩
      intro h hm
      rcases List.mem_cons.mp hm with h2 | h2
      · exact ⟨a, List.mem_cons_self _ _, h2⟩
      · obtain ⟨a2, ha2, he2⟩ := hmem h h2
        exact ⟨a2, List.mem_cons_of_mem _ ha2, he2⟩

theorem mem_correlate_events {ks : List KillEvent} {audios : List AudioMoment}
    {h : Highlight} (hm : h ∈ correlate_events ks audios) :
    (∃ k ∈ ks, h = correlate_kill audios k) ∨
    ∃ a ∈ audios, h = audio_only_highlight a := by
  unfold correlate_events at hm
  obtain ⟨extra, heq, hx⟩ := foldl_correlate_audio_append audios (ks.map (correlate_kill audios))
  rw [heq, List.mem_append] at hm
  rcases hm with h1 | h1
  · obtain ⟨k, hk, he⟩ := List.mem_map.mp h1
    exact Or.inl ⟨k, hk, he.symm⟩
  · exact Or.inr (hx _ h1)

theorem generate_clips_aux_pairwise {m : ℕ} {hs : List Highlight} {acc : List Clip} {last : ℚ}
    (hts : ∀ h ∈ hs, 0 ≤ h.timestamp)
    (hacc : ∀ c ∈ acc, c.start_time ≤ last)
    (hpw : acc.Pairwise fun a b => a.start_time < b.start_time) :
    (generate_clips_aux m hs acc last).Pairwise fun a b => a.start_time < b.start_time := by
  induction hs generalizing acc last with
  | nil => exact hpw
  | cons h rest ih =>
    have ht0 : 0 ≤ h.timestamp := hts h (List.mem_cons_self _ _)
    have hts2 : ∀ x ∈ rest, 0 ≤ x.timestamp := fun x hx => hts x (List.mem_cons_of_mem _ hx)
    simp only [generate_clips_aux]
    split_ifs with hgap hstop
    · exact ih hts2 hacc hpw
    · have hgap2 : last + 30 ≤ h.timestamp := by
        unfold min_highlight_gap at hgap; push_neg at hgap; linarith
      refine List.pairwise_append.mpr ⟨hpw, by simp, ?_⟩
      intro a ha b hb
      rw [List.mem_singleton] at hb; subst hb
      have h1 := hacc a ha
      have h2 := make_clip_start_ge h
      linarith
    · have hgap2 : last + 30 ≤ h.timestamp := by
        unfold min_highlight_gap at hgap; push_neg at hgap; linarith
      apply ih hts2
      · intro c hc
        rcases List.mem_append.mp hc with h1 | h1
        · have := hacc c h1; linarith
        · rw [List.mem_singleton] at h1; subst h1
          exact make_clip_start_le h ht0
      · refine List.pairwise_append.mpr ⟨hpw, by simp, ?_⟩
        intro a ha b hb
        rw [List.mem_singleton] at hb; subst hb
        have h1 := hacc a ha
        have h2 := make_clip_start_ge h
        linarith

theorem generate_clips_pairwise {hs : List Highlight} {m : ℕ}
    (hts : ∀ h ∈ hs, 0 ≤ h.timestamp) :
    (generate_clips hs m).Pairwise fun a b => a.start_time < b.start_time := by
  apply generate_clips_aux_pairwise
  · intro h hh; exact hts h (List.mem_of_mem_take hh)
  · intro c hc; cases hc
  · exact List.Pairwise.nil

theorem pattern_based_fallback_pairwise (probe : Option ℚ) :
    (pattern_based_fallback probe).Pairwise fun a b => a.start_time < b.start_time := by
  unfold pattern_based_fallback
  apply List.Pairwise.sublist (List.take_sublist _ _)
  rw [List.pairwise_filterMap]
  have base : fallback_intervals.Pairwise fun e1 e2 => e1.1 < e2.1 := by
    unfold fallback_intervals
    norm_num [List.pairwise_cons]
  refine base.imp ?_
  intro e1 e2 hlt c1 hc1 c2 hc2
  rw [Option.mem_def] at hc1 hc2
  have f1 := fallback_clip_for_eq_some hc1
  have f2 := fallback_clip_for_eq_some hc2
  rw [f1.1, f2.1]
  linarith

theorem detect_core_pairwise {s : MainSignals}
    (hk : ∀ k ∈ s.kill_events, 0 ≤ k.timestamp)
    (ha : ∀ a ∈ s.audio_moments, 0 ≤ a.start_time) :
    (detect_core s).Pairwise fun a b => a.start_time < b.start_time := by
  simp only [detect_core]
  apply generate_clips_pairwise
  intro h hh
  rw [mem_score_and_rank] at hh
  obtain ⟨h0, hh0, rfl⟩ := hh
  show 0 ≤ h0.timestamp
  rcases mem_correlate_events hh0 with ⟨k, hkm, rfl⟩ | ⟨a, ham, rfl⟩
  · rw [correlate_kill_timestamp]
    exact hk k (List.mem_filter.mp hkm).1
  · exact ha a (List.mem_filter.mp ham).1

theorem merge_step_preserves (d : ℚ) (m : AudioMoment) (st : List AudioMoment × List ℚ)
    (h : merge_inv d st) : merge_inv d (merge_step d st m) := by
  obtain ⟨hlen, hused, hpw, hwf⟩ := h
  simp only [merge_step]
  split_ifs with hc1 hc2
  · rw [Bool.and_eq_true, Bool.not_eq_true'] at hc1
    obtain ⟨htc, hlt⟩ := hc1
    rw [decide_eq_true_iff] at hlt
    rw [List.any_eq_false] at htc
    have hfar : ∀ a ∈ st.1, 20 ≤ |a.start_time - m.start_time| := by
      intro a ha
      have hu : a.start_time ∈ st.2 := by
        rw [hused]; exact List.mem_map_of_mem _ ha
      have := htc _ hu
      rw [decide_eq_true_iff] at this
      rw [abs_sub_comm]
      linarith [not_lt.mp this]
    refine ⟨?_, ?_, ?_, ?_⟩
    · rw [List.length_append]
      simp only [List.length_singleton]
      omega
    · simp [hused]
    · refine List.pairwise_append.mpr ⟨hpw, by simp, ?_⟩
      intro a ha b hb
      rw [List.mem_singleton] at hb; subst hb
      exact hfar a ha
    · intro x hx
      rcases List.mem_append.mp hx with h1 | h1
      · exact hwf x h1
      · rw [List.mem_singleton] at h1; subst h1
        exact ⟨min_le_right _ _, hc2⟩
  · exact ⟨hlen, hused, hpw, hwf⟩
  · exact ⟨hlen, hused, hpw, hwf⟩

theorem foldl_merge_inv (d : ℚ) (l : List AudioMoment) (st : List AudioMoment × List ℚ)
    (h : merge_inv d st) : merge_inv d (l.foldl (merge_step d) st) := by
  induction l generalizing st with
  | nil => exact h
  | cons a t ih => exact ih _ (merge_step_preserves d a st h)

/-! ### Evaluation lemmas for the concrete runs -/

theorem clip_params_single_kill : clip_params "single_kill" = (35, 6) := by decide

theorem clip_params_kill : clip_params "kill" = (35, 6) := by decide

theorem lookup_single_kill : event_scores.lookup "single_kill" = some 2 := by decide

theorem detect_eval_A : detect_smart_highlights (Except.ok sigA) none = [clipA] := by
  simp only [detect_smart_highlights, detect_core, sigA]
  norm_num [is_timestamp_in_game, List.filter, correlate_events, correlate_kill,
    audio_only_highlight, best_audio_score, score_and_rank, score_of, sortDesc, insertDesc,
    lookup_single_kill, generate_clips, generate_clips_aux, make_clip,
    clip_params_single_kill, min_highlight_gap, correlation_window, min_def, max_def, clipA,
    String.intercalate]
  rfl

theorem detect_eval_B : detect_smart_highlights (Except.ok sigB) none = [clipB1, clipB2] := by
  simp only [detect_smart_highlights, detect_core, sigB]
  norm_num [is_timestamp_in_game, List.filter, correlate_events, correlate_kill,
    audio_only_highlight, best_audio_score, score_and_rank, score_of, sortDesc, insertDesc,
    lookup_single_kill, generate_clips, generate_clips_aux, make_clip,
    clip_params_single_kill, min_highlight_gap, correlation_window, min_def, max_def,
    clipB1, clipB2, String.intercalate]
  rfl

theorem fallback_eval_150 : detect_smart_highlights (Except.error ()) (some 150) = [] := by
  simp only [detect_smart_highlights]
  norm_num [pattern_based_fallback, fallback_intervals, fallback_clip_for, List.filterMap]

theorem generate_eval : (generate_clips [genA, genB]).map Clip.start_time = [994] := by
  norm_num [generate_clips, generate_clips_aux, genA, genB, make_clip, clip_params_kill,
    min_highlight_gap, min_def, max_def, String.intercalate]

/-! ### Claims -/

/-- C1 (corrected): every clip output by `detect_smart_highlights`
satisfies `0 ≤ start_time < end_time` and
`duration = end_time - start_time`; the original claim's upper bound
`end_time ≤ video_duration` does not hold because `_generate_clips`
never clamps `end_time` to the video duration (see the
counterexample). -/
theorem C1_clips_wellformed_amended (outcome : Except Unit MainSignals) (fb : Option ℚ) :
    ∀ c ∈ detect_smart_highlights outcome fb,
      0 ≤ c.start_time ∧ c.start_time < c.end_time ∧
      c.duration = c.end_time - c.start_time := by
  intro c hc
  cases outcome with
  | ok s =>
    have hc2 : c ∈ detect_core s := hc
    simp only [detect_core] at hc2
    obtain ⟨h, -, rfl⟩ := mem_generate_clips hc2
    exact make_clip_wf h
  | error e =>
    obtain ⟨-, -, -, h4, h5, h6, -⟩ := mem_pattern_based_fallback hc
    exact ⟨h4, h5, h6⟩

/-- C1 counterexample: for the 400 s video of `sigA` (every input
timestamp is at most 400), the single output clip ends at t = 424 s,
which exceeds the video duration, refuting `end_time ≤ d`. -/
theorem C1_end_time_exceeds_duration :
    (detect_smart_highlights (Except.ok sigA) none).map Clip.end_time = [424] ∧
    ¬ ((424 : ℚ) ≤ 400) := by
  refine ⟨?_, by norm_num⟩
  rw [detect_eval_A]
  norm_num [clipA]

/-- C1 witness: the amended bounds hold for the concrete clip produced
from `sigA`. -/
theorem C1_wellformed_witness :
    0 ≤ clipA.start_time ∧ clipA.start_time < clipA.end_time ∧
    clipA.duration = clipA.end_time - clipA.start_time :=
  C1_clips_wellformed_amended (Except.ok sigA) none clipA
    (by rw [detect_eval_A]; exact List.mem_singleton_self _)

/-- C2 (corrected): output clips are not guaranteed pairwise disjoint
(`_generate_clips` has no interval-overlap check; the check quoted by
the spec lives only in the unused `AudioAnalyzer._remove_overlaps`).
What the greedy walk does guarantee is that accepted anchors are at
least 30 s apart, so for nonnegative event timestamps the output
clips' start times are strictly increasing. -/
theorem C2_start_times_increasing_amended (outcome : Except Unit MainSignals) (fb : Option ℚ)
    (h : ∀ s, outcome = Except.ok s →
      (∀ k ∈ s.kill_events, 0 ≤ k.timestamp) ∧ ∀ a ∈ s.audio_moments, 0 ≤ a.start_time) :
    (detect_smart_highlights outcome fb).Pairwise fun a b => a.start_time < b.start_time := by
  cases outcome with
  | ok s =>
    obtain ⟨hk, ha⟩ := h s rfl
    exact detect_core_pairwise hk ha
  | error e => exact pattern_based_fallback_pairwise fb

/-- C2 counterexample: two kills 30 s apart (`sigB`) yield the clips
[94, 129] and [124, 159], which overlap on [124, 129]. -/
theorem C2_overlapping_clips :
    detect_smart_highlights (Except.ok sigB) none = [clipB1, clipB2] ∧
    ¬ (clipB1.end_time ≤ clipB2.start_time ∨ clipB2.end_time ≤ clipB1.start_time) := by
  refine ⟨detect_eval_B, ?_⟩
  norm_num [clipB1, clipB2]

/-- C2 witness: the amended ordering property holds on the concrete
run `sigB`. -/
theorem C2_pairwise_witness :
    (detect_smart_highlights (Except.ok sigB) none).Pairwise
      fun a b => a.start_time < b.start_time := by
  apply C2_start_times_increasing_amended
  intro s hs
  injection hs with h2
  subst h2
  constructor
  · intro k hk
    fin_cases hk <;> norm_num
  · intro a ha
    cases ha

/-- C3 (corrected): the pattern-based fallback returns at least one
clip only when the known duration strictly exceeds 345 s (the first
interval needs `300 + 45 < duration`); the spec's 150 s threshold is
wrong (see the counterexample at exactly 150 s). -/
theorem C3_fallback_nonempty_amended (d : ℚ) (hd : 345 < d) :
    1 ≤ (pattern_based_fallback (some d)).length := by
  unfold pattern_based_fallback
  have hsome : fallback_clip_for d 120 (300, "early_game", 0.6) =
      some { start_time := 300 - 10, end_time := 300 + 35, duration := 45,
             excitement_score := 0.6, detection_reason := "Pattern: " ++ "early_game",
             type := "pattern_fallback", event_type := "early_game",
             confidence := 0.6, methods_used := ["pattern"], in_game_verified := false } := by
    unfold fallback_clip_for
    rw [if_pos]
    constructor
    · norm_num
    · norm_num
      linarith
  have hmem : _ ∈ fallback_intervals.filterMap (fallback_clip_for d 120) :=
    List.mem_filterMap.mpr ⟨(300, "early_game", 0.6), by simp [fallback_intervals], hsome⟩
  have hpos := List.length_pos.mpr (List.ne_nil_of_mem hmem)
  rw [List.length_take]
  exact le_min (by norm_num) hpos

/-- C3 counterexample: for a known duration of exactly 150 s (which
satisfies the claim's `duration ≥ 150`), the fallback path returns no
clips at all. -/
theorem C3_empty_at_150 :
    detect_smart_highlights (Except.error ()) (some 150) = [] ∧ (150 : ℚ) ≤ 150 :=
  ⟨fallback_eval_150, le_refl _⟩

/-- C3 witness: at duration 400 s the amended bound applies and the
fallback produces at least one clip. -/
theorem C3_witness_400 :
    (345 : ℚ) < 400 ∧ 1 ≤ (pattern_based_fallback (some 400)).length :=
  ⟨by norm_num, C3_fallback_nonempty_amended 400 (by norm_num)⟩

/-- C4 (confirmed): `detect_smart_highlights` is total: an error in
the main path is redirected to `_pattern_based_fallback` (which is a
plain total function of the probed duration), and in every case the
returned list is well-formed: each clip has
`0 ≤ start_time < end_time` and `duration = end_time - start_time`. -/
theorem C4_always_completes (outcome : Except Unit MainSignals) (fb : Option ℚ) :
    (∀ e : Unit, outcome = Except.error e →
      detect_smart_highlights outcome fb = pattern_based_fallback fb) ∧
    ∀ c ∈ detect_smart_highlights outcome fb,
      0 ≤ c.start_time ∧ c.start_time < c.end_time ∧
      c.duration = c.end_time - c.start_time := by
  constructor
  · rintro e rfl
    rfl
  · intro c hc
    cases outcome with
    | ok s =>
      have hc2 : c ∈ detect_core s := hc
      simp only [detect_core] at hc2
      obtain ⟨h, -, rfl⟩ := mem_generate_clips hc2
      exact make_clip_wf h
    | error e =>
      obtain ⟨-, -, -, h4, h5, h6, -⟩ := mem_pattern_based_fallback hc
      exact ⟨h4, h5, h6⟩

/-- C4 witness: a failing main path with a 150 s probe is redirected
to the pattern-based fallback. -/
theorem C4_error_redirect_witness :
    detect_smart_highlights (Except.error ()) (some 150) = pattern_based_fallback (some 150) :=
  (C4_always_completes (Except.error ()) (some 150)).1 () rfl

/-- C5 (corrected): the gap rule is a signed comparison
`timestamp - last_clip_time < 30`, not a distance check: a candidate
anchored less than 30 s after the most recently accepted anchor is
skipped, and so is every candidate anchored before that anchor, however
far away; only a candidate anchored at least 30 s after the last
accepted anchor survives the gap rule (and is then accepted
unconditionally, subject only to the clip-count cap). -/
theorem C5_gap_rule_signed_amended (h : Highlight) (rest : List Highlight)
    (clips : List Clip) (last : ℚ) (m : ℕ) :
    (h.timestamp - last < min_highlight_gap →
      generate_clips_aux m (h :: rest) clips last = generate_clips_aux m rest clips last) ∧
    (min_highlight_gap ≤ h.timestamp - last →
      generate_clips_aux m (h :: rest) clips last =
        if m ≤ (clips ++ [make_clip h]).length then clips ++ [make_clip h]
        else generate_clips_aux m rest (clips ++ [make_clip h]) h.timestamp) := by
  constructor
  · intro hlt
    simp only [generate_clips_aux]
    rw [if_pos hlt]
  · intro hge
    simp only [generate_clips_aux]
    rw [if_neg (not_lt.mpr hge)]

/-- C5 counterexample: the candidate `genB` (t = 100 s) is 900 s away
from the accepted anchor `genA` (t = 1000 s), yet the walk rejects it:
only `genA`'s clip (start 994) is emitted.  This refutes the claim
that a candidate at least 30 s from the last accepted anchor is never
rejected by the gap rule. -/
theorem C5_far_candidate_rejected :
    30 ≤ |genB.timestamp - genA.timestamp| ∧
    (generate_clips [genA, genB]).map Clip.start_time = [994] := by
  constructor
  · norm_num [genA, genB]
  · exact generate_eval

/-- C5 witness: the skip branch of the amended rule fires for `genB`
against a last accepted anchor at t = 1000 s. -/
theorem C5_gap_skip_witness :
    genB.timestamp - 1000 < min_highlight_gap ∧
    generate_clips_aux 8 [genB] [] 1000 = generate_clips_aux 8 [] [] 1000 := by
  refine ⟨by norm_num [genB, min_highlight_gap], ?_⟩
  exact (C5_gap_rule_signed_amended genB [] [] 1000 8).1
    (by norm_num [genB, min_highlight_gap])

/-- C6 (corrected): the scorer caps each candidate score at 10
(`min(score, 10)`), not at 1, so output clips carry scores on a 0-10
scale; every clip's excitement score is at most 10, but scores above 1
occur (see the counterexample), refuting the canonical [0,1] claim. -/
theorem C6_score_capped_amended (outcome : Except Unit MainSignals) (fb : Option ℚ) :
    ∀ c ∈ detect_smart_highlights outcome fb, c.excitement_score ≤ 10 := by
  intro c hc
  cases outcome with
  | ok s =>
    have hc2 : c ∈ detect_core s := hc
    simp only [detect_core] at hc2
    obtain ⟨h, hh, rfl⟩ := mem_generate_clips hc2
    rw [make_clip_score]
    rw [mem_score_and_rank] at hh
    obtain ⟨h0, -, rfl⟩ := hh
    exact score_of_le_ten h0
  | error e =>
    exact (mem_pattern_based_fallback hc).2.2.2.2.2.2

/-- C6 counterexample: both clips of the `sigB` run carry excitement
score 1.68 = 2 x 0.7 x 1.2, outside [0,1]. -/
theorem C6_score_exceeds_one :
    (detect_smart_highlights (Except.ok sigB) none).map Clip.excitement_score =
      [1.68, 1.68] ∧ ¬ ((1.68 : ℚ) ≤ 1) := by
  refine ⟨?_, by norm_num⟩
  rw [detect_eval_B]
  norm_num [clipB1, clipB2]

/-- C6 witness: the amended cap holds for the concrete clip of the
`sigB` run. -/
theorem C6_score_bound_witness : clipB1.excitement_score ≤ 10 :=
  C6_score_capped_amended (Except.ok sigB) none clipB1
    (by rw [detect_eval_B]; exact List.mem_cons_self _ _)

/-- C7 (confirmed): for a kill anchor, if some audio moment lies
within the 8 s correlation window the correlated highlight's
confidence is `min 1 (anchor confidence + 0.2)` and its methods gain
"audio"; with no audio moment in the window the confidence is the
anchor's, unchanged. -/
theorem C7_correlation_confidence (audios : List AudioMoment) (k : KillEvent) :
    ((∃ a ∈ audios, |a.start_time - k.timestamp| ≤ correlation_window) →
      (correlate_kill audios k).confidence = min 1 (k.confidence + 0.2) ∧
      "audio" ∈ (correlate_kill audios k).detection_methods) ∧
    ((∀ a ∈ audios, ¬(|a.start_time - k.timestamp| ≤ correlation_window)) →
      (correlate_kill audios k).confidence = k.confidence) := by
  constructor
  · rintro ⟨a, ha, haw⟩
    have hne : audios.filter
        (fun audio_event =>
          decide (|audio_event.start_time - k.timestamp| ≤ correlation_window)) ≠ [] := by
      exact List.ne_nil_of_mem (List.mem_filter.mpr ⟨ha, by simpa using haw⟩)
    simp only [correlate_kill]
    rw [if_neg hne]
    exact ⟨rfl, by simp⟩
  · intro hall
    have hnil : audios.filter
        (fun audio_event =>
          decide (|audio_event.start_time - k.timestamp| ≤ correlation_window)) = [] := by
      rw [List.filter_eq_nil_iff]
      intro a ha
      simpa using hall a ha
    simp only [correlate_kill]
    rw [if_pos hnil]

/-- C7 witness: the kill at t = 200 s with an audio spike at t = 205 s
(within the 8 s window) gets confidence `min 1 (0.7 + 0.2)` and the
"audio" method. -/
theorem C7_confidence_witness :
    (correlate_kill [audC] killC).confidence = min 1 (killC.confidence + 0.2) ∧
    "audio" ∈ (correlate_kill [audC] killC).detection_methods :=
  (C7_correlation_confidence [audC] killC).1
    ⟨audC, List.mem_singleton_self _, by norm_num [audC, killC, correlation_window]⟩

/-- C8 (confirmed): the gameplay-period fallback for a known duration
`d` is the single period `[0.05 d, 0.95 d]` with confidence 0.6 (at
d = 1800 this is [90, 1710]), and when HUD analysis yields zero
periods, running the pipeline is the same as running it on the
substituted fallback period list. -/
theorem C8_fallback_period (d : ℚ) :
    (get_gameplay_periods_fallback (some d) =
      [{ start_time := 0.05 * d, end_time := 0.95 * d, confidence := 0.6,
         method := some "fallback" }]) ∧
    (get_gameplay_periods_fallback (some 1800) =
      [{ start_time := 90, end_time := 1710, confidence := 0.6, method := some "fallback" }]) ∧
    ∀ (probe : Option ℚ) (ks : List KillEvent) (moments : List AudioMoment),
      detect_core { gameplay_periods := [], hud_fallback_probe := probe,
                    kill_events := ks, audio_moments := moments } =
      detect_core { gameplay_periods := get_gameplay_periods_fallback probe,
                    hud_fallback_probe := probe,
                    kill_events := ks, audio_moments := moments } := by
  refine ⟨?_, ?_, ?_⟩
  · simp only [get_gameplay_periods_fallback, List.cons.injEq, and_true,
      GameplayPeriod.mk.injEq]
    constructor <;> ring
  · simp only [get_gameplay_periods_fallback, List.cons.injEq, and_true,
      GameplayPeriod.mk.injEq]
    norm_num
  · intro probe ks moments
    simp only [detect_core]
    split_ifs <;> simp_all

/-- C9 (confirmed): the pattern-based fallback returns at most 5
clips, and every clip it returns is tagged type "pattern_fallback"
with `in_game_verified = false` and `methods_used = ["pattern"]`. -/
theorem C9_fallback_clip_tags (probe : Option ℚ) :
    (pattern_based_fallback probe).length ≤ 5 ∧
    ∀ c ∈ pattern_based_fallback probe,
      c.type = "pattern_fallback" ∧ c.in_game_verified = false ∧
      c.methods_used = ["pattern"] := by
  constructor
  · unfold pattern_based_fallback
    rw [List.length_take]
    exact min_le_left _ _
  · intro c hc
    obtain ⟨hty, hmeth, hver, -, -, -, -⟩ := mem_pattern_based_fallback hc
    exact ⟨hty, hver, hmeth⟩

/-- C9 witness: the clip-count bound at the default 3600 s duration. -/
theorem C9_fallback_length_witness : (pattern_based_fallback (some 3600)).length ≤ 5 :=
  (C9_fallback_clip_tags (some 3600)).1

/-- C10 (confirmed): `_merge_and_rank_simple` returns at most 15
moments, selected start times are pairwise at least 20 s apart, every
selected moment ends by the video duration, and every selected moment
lasts at least 2 s. -/
theorem C10_merge_invariants (all_moments : List AudioMoment) (video_duration : ℚ) :
    (merge_and_rank_simple all_moments video_duration).length ≤ 15 ∧
    ((merge_and_rank_simple all_moments video_duration).Pairwise fun a b =>
      20 ≤ |a.start_time - b.start_time|) ∧
    ∀ m ∈ merge_and_rank_simple all_moments video_duration,
      m.end_time ≤ video_duration ∧ 2 ≤ m.duration := by
  simp only [merge_and_rank_simple]
  split_ifs with h0
  · simp
  · have h := foldl_merge_inv video_duration
      (sortDesc AudioMoment.excitement_score all_moments) ([], [])
      ⟨by simp, by simp, by simp, by simp⟩
    exact ⟨h.1, h.2.2.1, h.2.2.2⟩

/-- C10 witness: the invariants instantiated on a concrete run. -/
theorem C10_merge_witness : (merge_and_rank_simple [] 0).length ≤ 15 :=
  (C10_merge_invariants [] 0).1
